import Mathlib

/-!
Shallow embedding of `include/Parameter.h` (ORB_SLAM2 runtime parameter
registry and pangolin synchronization engine), together with theorems
settling the specification claims about it.

Modelling conventions:
* `Param V` embeds `Parameter<T>` with value type `V`; the
  `mOnUpdateCallback` member is not data — instead every operation that may
  invoke it returns a `Nat` counting how many times `onUpdate()` was called.
* A pangolin variable (`pangolin::Var<T>` or `pangolin::Var<std::string>`)
  is a `Control V S`: `typed v` for the BOOL/MINMAX widgets and `text s`
  for the TEXTINPUT widget, `S` being the embedding's string type.
* `boost::lexical_cast<T>` is an abstract `parse : S → Option V`
  (`none` embeds the thrown `boost::bad_lexical_cast`), and
  `std::to_string` is `toStr : V → S`.
* C++ exceptions are `Except`/an error component: `RunErr.convError` is the
  uncaught `bad_lexical_cast`, `RunErr.badGet` an uncaught `boost::bad_get`,
  and `RunErr.useAfterFree` marks a dereference of a freed `Parameter`
  (undefined behaviour in the source).
* The heap of `Parameter` objects is `List (Option (Param V))`: the index is
  the object's address (`ParameterBase*`), `none` a freed object.
* `parametersDict` (a `std::map<std::string, ParameterBase*>` per group) is
  a key-sorted association list `List (String × Option Nat)`, the stored
  `Option Nat` being the possibly-null `ParameterBase*`. The outer
  `std::map<ParameterGroup, ...>` is an association list on groups; its
  iteration order is never observed by the claims, so only membership is
  modelled faithfully there.
-/

/-- `enum class ParameterGroup` (Parameter.h lines 13-24). -/
inductive ParameterGroup where
  | PARAMETER
  | MAIN
  | ORBEXTRACTOR
  | INITIALIZATION
  | TRACKING
  | RELOCALIZATION
  | LOCAL_MAPPING
  | LOOP_CLOSING
  | UNDEFINED
  deriving DecidableEq, Repr

/-- `ParameterBase::ParameterCategory` (Parameter.h lines 32-38). -/
inductive ParameterCategory where
  | MINMAX
  | BOOL
  | TEXTINPUT
  | UNDEFINED
  deriving DecidableEq, Repr

/-- The data members of `Parameter<T>` (Parameter.h lines 150-171); the
callback member is modelled by effect counting, not stored. -/
structure Param (V : Type) where
  mCategory : ParameterCategory
  mMinValue : V
  mMaxValue : V
  mValue : V
  mName : String
  mGroup : ParameterGroup
  mChangedThroughPangolin : Bool := false
  mChangedInCode : Bool := false
  deriving DecidableEq, Repr

/-- The external widget bound to a parameter: `pangolin::Var<T>` for the
BOOL/MINMAX categories, `pangolin::Var<std::string>` for TEXTINPUT
(cf. `PangolinVariants`, Parameter.h lines 179-180). -/
inductive Control (V S : Type) where
  | typed : V → Control V S
  | text : S → Control V S
  deriving DecidableEq, Repr

/-- Run-time failures of a reconciliation pass: an uncaught
`boost::bad_lexical_cast`, an uncaught `boost::bad_get`, or a dereference of
a freed `Parameter` (undefined behaviour). -/
inductive RunErr where
  | convError
  | badGet
  | useAfterFree
  deriving DecidableEq, Repr

/-- `Parameter<T>::setValue` (Parameter.h line 131):
`mValue = value; mChangedInCode = true;`.  The `Nat` component counts
`onUpdate()` invocations performed by the call; the source body contains
none. -/
def setValue {V : Type} (p : Param V) (v : V) : Param V × Nat :=
  ({ p with mValue := v, mChangedInCode := true }, 0)

/-- `Parameter<T>::getValue` (Parameter.h line 130). -/
def getValue {V : Type} (p : Param V) : V :=
  p.mValue

/-- `Parameter<T>::checkAndResetIfChanged` (Parameter.h lines 132-143). -/
def checkAndResetIfChanged {V : Type} (p : Param V) : Bool × Param V :=
  if p.mChangedThroughPangolin then
    (true, { p with mChangedThroughPangolin := false })
  else
    (false, p)

/-- `ParameterManager::updateValue<T>` (Parameter.h lines 289-348), for one
parameter and its bound pangolin variable.  Returns the updated parameter,
the updated control, and the number of `onUpdate()` invocations; an
`Except.error` is an exception propagating out of the call. -/
def updateValueM {V S : Type} [DecidableEq V] (parse : S → Option V)
    (toStr : V → S) (param : Param V) (pango : Control V S) :
    Except RunErr (Param V × Control V S × Nat) :=
  let param_value := param.mValue
  if param.mCategory = ParameterCategory.TEXTINPUT then
    match pango with
    | Control.text s =>
      match parse s with
      | none => Except.error RunErr.convError
      | some pango_var_value =>
        if param.mChangedInCode then
          Except.ok ({ param with mChangedInCode := false },
            Control.text (toStr param_value), 1)
        else if pango_var_value ≠ param_value then
          Except.ok
            ({ param with mValue := pango_var_value, mChangedThroughPangolin := true },
              Control.text s, 1)
        else
          Except.ok (param, Control.text s, 0)
    | Control.typed _ => Except.error RunErr.badGet
  else
    match pango with
    | Control.typed pv =>
      if pv ≠ param_value then
        if param.mChangedInCode then
          Except.ok ({ param with mChangedInCode := false },
            Control.typed param_value, 1)
        else
          Except.ok
            ({ param with mValue := pv, mChangedThroughPangolin := true },
              Control.typed pv, 1)
      else
        Except.ok (param, Control.typed pv, 0)
    | Control.text _ => Except.error RunErr.badGet

/-- `ParameterManager::updateParameters` (Parameter.h lines 209-238): one
reconciliation pass over the stored bindings.  Each binding holds the raw
address (`Nat` index into the heap) the source keeps in `pangolinParams`
and the pangolin variable; the source dereferences that address with no
tombstone or null check, so a freed slot yields `RunErr.useAfterFree`.
On an exception the pass stops: already-processed bindings keep their
updates, the failing binding and the rest are returned unprocessed.
Result: (heap, bindings, total onUpdate count, propagated error if any). -/
def tick {V S : Type} [DecidableEq V] (parse : S → Option V) (toStr : V → S) :
    List (Option (Param V)) → List (Nat × Control V S) →
    List (Option (Param V)) × List (Nat × Control V S) × Nat × Option RunErr
  | heap, [] => (heap, [], 0, none)
  | heap, (pid, c) :: rest =>
    match heap[pid]? with
    | none => (heap, (pid, c) :: rest, 0, some RunErr.useAfterFree)
    | some none => (heap, (pid, c) :: rest, 0, some RunErr.useAfterFree)
    | some (some p) =>
      match updateValueM parse toStr p c with
      | Except.error e => (heap, (pid, c) :: rest, 0, some e)
      | Except.ok (p1, c1, n1) =>
        match tick parse toStr (heap.set pid (some p1)) rest with
        | (h2, bs2, m, e2) => (h2, (pid, c1) :: bs2, n1 + m, e2)

/-- Concrete textual conversion used by the closed witnesses: the
`boost::lexical_cast<bool>` analogue over the model's string type. -/
def boolParse (s : String) : Option Bool :=
  if s = "true" then some true
  else if s = "false" then some false
  else none

/-- Concrete `std::to_string` analogue paired with `boolParse`. -/
def boolToStr (b : Bool) : String :=
  if b then "true" else "false"

/-- Lookup in one group's `std::map<std::string, ParameterBase*>`:
`some` when the key is present (even when the stored pointer is null). -/
def mapFind {α : Type} : List (String × α) → String → Option α
  | [], _ => none
  | (k0, v0) :: rest, k => if k = k0 then some v0 else mapFind rest k

/-- Key comparison of `std::map<std::string, ...>`: lexicographic order on
the strings, modelled on their character lists. -/
def strLt (a b : String) : Bool :=
  decide (a.data < b.data)

/-- Insertion into one group's `std::map<std::string, ParameterBase*>`
(`parametersDict[group][name] = ptr`): the map is kept sorted by key, and
an existing entry for the key is overwritten. -/
def mapInsert {α : Type} : List (String × α) → String → α → List (String × α)
  | [], k, v => [(k, v)]
  | (k0, v0) :: rest, k, v =>
    if strLt k k0 then (k, v) :: (k0, v0) :: rest
    else if k = k0 then (k, v) :: rest
    else (k0, v0) :: mapInsert rest k v

/-- One group's slice of `parametersDict`: name, then the stored
`ParameterBase*` — `some pid` a live address, `none` a null pointer
(tombstone). -/
abbrev GroupDict := List (String × Option Nat)

/-- `ParameterBase::parametersDict` (Parameter.h line 40): per-group maps.
Only membership of the outer map is observable to the claims, so it is an
association list on groups. -/
abbrev Registry := List (ParameterGroup × GroupDict)

/-- Lookup of a group's map in `parametersDict` (`parametersDict.find(group)`). -/
def regFind : Registry → ParameterGroup → Option GroupDict
  | [], _ => none
  | (g0, d0) :: rest, g => if g = g0 then some d0 else regFind rest g

/-- Store a group's map back into `parametersDict`
(the write-back of `parametersDict[group]`, default-constructing the group
entry when absent). -/
def regSet : Registry → ParameterGroup → GroupDict → Registry
  | [], g, d => [(g, d)]
  | (g0, d0) :: rest, g, d =>
    if g = g0 then (g, d) :: rest else (g0, d0) :: regSet rest g d

/-- The registration tail shared by the three `Parameter<T>` constructors
(Parameter.h lines 79-84, 98-103, 116-121): warn when the key is already
present (`found_it != end()`), then `parametersDict[group][name] = this`.
`pid` stands for the constructed object's address; the returned `Bool` is
true when the duplicate warning was logged. -/
def registerParam (reg : Registry) (g : ParameterGroup) (name : String)
    (pid : Nat) : Registry × Bool :=
  let d := (regFind reg g).getD []
  (regSet reg g (mapInsert d name (some pid)), (mapFind d name).isSome)

/-- `Parameter<T>::~Parameter` (Parameter.h lines 124-128):
`parametersDict[mGroup][mName] = nullptr` — the key stays, the stored
pointer becomes null. -/
def tombstoneParam (reg : Registry) (g : ParameterGroup) (name : String) :
    Registry :=
  let d := (regFind reg g).getD []
  regSet reg g (mapInsert d name none)

/-- `ParameterManager::getParameter<T>` (Parameter.h lines 240-263).
First component: the returned pointer, as `some pid` / `none` for null
(a tombstoned entry is found and returned as the stored null pointer).
Second component: whether the lookup-miss diagnostic was logged. -/
def getParameter (reg : Registry) (g : ParameterGroup) (name : String) :
    Option Nat × Bool :=
  match regFind reg g with
  | some d =>
    match mapFind d name with
    | some ptr => (ptr, false)
    | none => (none, true)
  | none => (none, true)

/-- Visit order of `createPangolinEntries`' loop over
`parametersDict[target_group]` (Parameter.h line 188): the group map's keys
in map order. -/
def groupKeys (reg : Registry) (g : ParameterGroup) : List String :=
  ((regFind reg g).getD []).map Prod.fst

/-- Concrete BOOL parameter whose `changedInternally` flag is set while the
external control already equals the internal value. -/
def paramC1ex : Param Bool :=
  { mCategory := ParameterCategory.BOOL, mMinValue := false, mMaxValue := true,
    mValue := true, mName := "toggle", mGroup := ParameterGroup.MAIN,
    mChangedThroughPangolin := false, mChangedInCode := true }

def paramC1w : Param Bool :=
  { mCategory := ParameterCategory.BOOL, mMinValue := false, mMaxValue := true,
    mValue := true, mName := "pose", mGroup := ParameterGroup.MAIN,
    mChangedThroughPangolin := false, mChangedInCode := true }

/-- Concrete TEXTINPUT parameter used for the malformed-text counterexample. -/
def paramC2ex : Param Bool :=
  { mCategory := ParameterCategory.TEXTINPUT, mMinValue := false,
    mMaxValue := false, mValue := true, mName := "flagText",
    mGroup := ParameterGroup.MAIN }

def paramC2w : Param Bool :=
  { mCategory := ParameterCategory.TEXTINPUT, mMinValue := false,
    mMaxValue := false, mValue := true, mName := "useText",
    mGroup := ParameterGroup.MAIN }

def paramC4w : Param Bool :=
  { mCategory := ParameterCategory.BOOL, mMinValue := false, mMaxValue := true,
    mValue := false, mName := "gain", mGroup := ParameterGroup.MAIN }

def paramC5w : Param Bool :=
  { mCategory := ParameterCategory.BOOL, mMinValue := false, mMaxValue := true,
    mValue := false, mName := "track", mGroup := ParameterGroup.MAIN }

def paramC6w : Param Bool :=
  { mCategory := ParameterCategory.BOOL, mMinValue := false, mMaxValue := true,
    mValue := false, mName := "thresh", mGroup := ParameterGroup.TRACKING }

theorem mapFind_mapInsert_self {α : Type} (d : List (String × α)) (k : String)
    (v : α) : mapFind (mapInsert d k v) k = some v := by
  induction d with
  | nil => simp [mapInsert, mapFind]
  | cons hd rest ih =>
    obtain ⟨k0, v0⟩ := hd
    simp only [mapInsert]
    split_ifs with h1 h2
    · simp [mapFind]
    · simp [mapFind]
    · simp [mapFind, h2, ih]

theorem regFind_regSet_self (reg : Registry) (g : ParameterGroup)
    (d : GroupDict) : regFind (regSet reg g d) g = some d := by
  induction reg with
  | nil => simp [regSet, regFind]
  | cons hd rest ih =>
    obtain ⟨g0, d0⟩ := hd
    simp only [regSet]
    split_ifs with h1
    · simp [regFind]
    · simp [regFind, h1, ih]

theorem regFind_regSet_other (reg : Registry) (g g' : ParameterGroup)
    (d : GroupDict) (h : g' ≠ g) :
    regFind (regSet reg g d) g' = regFind reg g' := by
  induction reg with
  | nil => simp [regSet, regFind, h]
  | cons hd rest ih =>
    obtain ⟨g0, d0⟩ := hd
    simp only [regSet]
    split_ifs with h1
    · subst h1
      simp [regFind, h]
    · simp only [regFind]
      split_ifs with h2
      · rfl
      · exact ih

theorem strLt_total {a b : String} (h1 : strLt a b = false) (h2 : a ≠ b) :
    strLt b a = true := by
  simp only [strLt, decide_eq_false_iff_not, decide_eq_true_eq] at h1 ⊢
  rcases lt_trichotomy a.data b.data with h | h | h
  · exact absurd h h1
  · refine absurd ?_ h2
    cases a
    cases b
    simp_all
  · exact h

theorem mapInsert_headKey {α : Type} (d : List (String × α)) (k : String)
    (v : α) :
    ((mapInsert d k v).map Prod.fst).head? = some k
    ∨ ((mapInsert d k v).map Prod.fst).head? = (d.map Prod.fst).head? := by
  cases d with
  | nil => left; rfl
  | cons hd rest =>
    obtain ⟨k0, v0⟩ := hd
    simp only [mapInsert]
    split_ifs with h1 h2
    · left; rfl
    · left; rfl
    · right; rfl

theorem chain_keys_mapInsert {α : Type} (d : List (String × α)) (k : String)
    (v : α)
    (h : List.Chain' (fun a b => strLt a b = true) (d.map Prod.fst)) :
    List.Chain' (fun a b => strLt a b = true) ((mapInsert d k v).map Prod.fst) := by
  induction d with
  | nil => simp [mapInsert]
  | cons hd rest ih =>
    obtain ⟨k0, v0⟩ := hd
    simp only [mapInsert]
    split_ifs with h1 h2
    · simp only [List.map_cons] at h ⊢
      exact List.Chain'.cons h1 h
    · subst h2
      simpa using h
    · simp only [List.map_cons] at h ⊢
      rw [List.chain'_cons'] at h ⊢
      obtain ⟨hhead, htail⟩ := h
      refine ⟨?_, ih htail⟩
      intro y hy
      rcases mapInsert_headKey rest k v with hcase | hcase
      · rw [hcase] at hy
        cases hy
        exact strLt_total (by simpa using h1) h2
      · rw [hcase] at hy
        exact hhead y hy

theorem registerParam_chain (r : Registry) (g g' : ParameterGroup)
    (name : String) (pid : Nat)
    (h : List.Chain' (fun a b => strLt a b = true) (groupKeys r g')) :
    List.Chain' (fun a b => strLt a b = true)
      (groupKeys (registerParam r g name pid).1 g') := by
  by_cases hg : g' = g
  · subst hg
    unfold registerParam groupKeys
    simp only [regFind_regSet_self, Option.getD_some]
    exact chain_keys_mapInsert _ _ _ h
  · unfold registerParam groupKeys
    simp only [regFind_regSet_other _ _ _ _ hg]
    exact h

theorem updateValueM_stable {V S : Type} [DecidableEq V]
    {parse : S → Option V} {toStr : V → S}
    (rt : ∀ v : V, parse (toStr v) = some v)
    {p p' : Param V} {c c' : Control V S} {n : Nat}
    (h : updateValueM parse toStr p c = Except.ok (p', c', n)) :
    updateValueM parse toStr p' c' = Except.ok (p', c', 0) := by
  by_cases hcat : p.mCategory = ParameterCategory.TEXTINPUT
  · cases c with
    | typed v => simp [updateValueM, hcat] at h
    | text s =>
      cases hp : parse s with
      | none => simp [updateValueM, hcat, hp] at h
      | some w =>
        by_cases hic : p.mChangedInCode = true
        · simp [updateValueM, hcat, hp, hic] at h
          obtain ⟨h1, h2, h3⟩ := h
          subst h1 h2 h3
          simp [updateValueM, hcat, rt]
        · by_cases hw : w = p.mValue
          · simp [updateValueM, hcat, hp, hic, hw] at h
            obtain ⟨h1, h2, h3⟩ := h
            subst h1 h2 h3
            simp [updateValueM, hcat, hp, hic, hw]
          · simp [updateValueM, hcat, hp, hic, hw] at h
            obtain ⟨h1, h2, h3⟩ := h
            subst h1 h2 h3
            simp [updateValueM, hcat, hp, hic]
  · cases c with
    | text s => simp [updateValueM, hcat] at h
    | typed pv =>
      by_cases hne : pv = p.mValue
      · simp [updateValueM, hcat, hne] at h
        obtain ⟨h1, h2, h3⟩ := h
        subst h1 h2 h3
        simp [updateValueM, hcat]
      · by_cases hic : p.mChangedInCode = true
        · simp [updateValueM, hcat, hne, hic] at h
          obtain ⟨h1, h2, h3⟩ := h
          subst h1 h2 h3
          simp [updateValueM, hcat]
        · simp [updateValueM, hcat, hne, hic] at h
          obtain ⟨h1, h2, h3⟩ := h
          subst h1 h2 h3
          simp [updateValueM, hcat]

theorem listSet_same {α : Type} :
    ∀ (l : List α) (i : Nat) (a : α), l[i]? = some a → l.set i a = l
  | [], i, a, h => by simp at h
  | x :: xs, 0, a, h => by
    simp at h
    simp [List.set, h]
  | x :: xs, i + 1, a, h => by
    simp at h
    simp [List.set, listSet_same xs i a h]

theorem tick_heap_other {V S : Type} [DecidableEq V]
    (parse : S → Option V) (toStr : V → S)
    (heap : List (Option (Param V))) (bs : List (Nat × Control V S)) (pid : Nat)
    (hno : pid ∉ bs.map Prod.fst) :
    (tick parse toStr heap bs).1[pid]? = heap[pid]? := by
  induction bs generalizing heap with
  | nil => rfl
  | cons b rest ih =>
    obtain ⟨q, c⟩ := b
    simp only [List.map_cons, List.mem_cons] at hno
    push_neg at hno
    obtain ⟨hq, hrest⟩ := hno
    rw [tick]
    split
    · rfl
    · rfl
    · rename_i pp hh
      split
      · rfl
      · rename_i p1 c1 n1 hu
        split
        rename_i hA bsA mA eA htk
        have hother := ih (heap.set q (some p1)) hrest
        rw [htk] at hother
        simp only at hother ⊢
        rw [hother, List.getElem?_set_ne (fun he => hq he.symm)]

/-- C1, counterexample: for a BOOL parameter whose `changedInternally` flag
is set at the start of the tick while the external value already equals the
internal value, the reconciliation does nothing — the flag is not cleared
and `onUpdate` is invoked zero times, contradicting the claim's "even when
the external value already equals the internal value". -/
theorem C1_counterexample :
    paramC1ex.mChangedInCode = true
    ∧ updateValueM boolParse boolToStr paramC1ex (Control.typed true)
      = Except.ok (paramC1ex, Control.typed true, 0) := by
  exact ⟨rfl, rfl⟩

/-- C1, amended: on every reconciliation tick at most one of the two
propagation branches fires (never both, and `onUpdate` runs at most once).
When `changedInternally` is set at the start of the tick, the internal value
is pushed to the control, the flag cleared and `onUpdate` invoked exactly
once for a FreeText parameter (even when the external text already denotes
the internal value), but for Toggle/BoundedRange parameters only when the
external value differs from the internal one — when they are already equal,
nothing happens and the flag stays set (cf. the C1 counterexample). -/
theorem C1_amended_one_branch {V S : Type} [DecidableEq V]
    {parse : S → Option V} {toStr : V → S}
    {p p' : Param V} {c c' : Control V S} {n : Nat}
    (h : updateValueM parse toStr p c = Except.ok (p', c', n)) :
    n ≤ 1
    ∧ ¬((p.mChangedInCode = true ∧ p'.mChangedInCode = false)
        ∧ (p.mChangedThroughPangolin = false ∧ p'.mChangedThroughPangolin = true))
    ∧ (p.mChangedInCode = true → p.mCategory = ParameterCategory.TEXTINPUT →
        p'.mChangedInCode = false ∧ c' = Control.text (toStr p.mValue) ∧ n = 1)
    ∧ (p.mChangedInCode = true → p.mCategory ≠ ParameterCategory.TEXTINPUT →
        c ≠ Control.typed p.mValue →
        p'.mChangedInCode = false ∧ c' = Control.typed p.mValue ∧ n = 1) := by
  by_cases hcat : p.mCategory = ParameterCategory.TEXTINPUT
  · cases c with
    | typed v => simp [updateValueM, hcat] at h
    | text s =>
      cases hp : parse s with
      | none => simp [updateValueM, hcat, hp] at h
      | some w =>
        by_cases hic : p.mChangedInCode = true
        · simp [updateValueM, hcat, hp, hic] at h
          obtain ⟨h1, h2, h3⟩ := h
          subst h1 h2 h3
          refine ⟨le_refl 1, by simp, fun _ _ => ⟨rfl, rfl, rfl⟩, fun _ hc _ => absurd hcat hc⟩
        · by_cases hw : w = p.mValue
          · simp [updateValueM, hcat, hp, hic, hw] at h
            obtain ⟨h1, h2, h3⟩ := h
            subst h1 h2 h3
            refine ⟨by omega, by simp [hic], fun hx _ => absurd hx hic, fun hx _ _ => absurd hx hic⟩
          · simp [updateValueM, hcat, hp, hic, hw] at h
            obtain ⟨h1, h2, h3⟩ := h
            subst h1 h2 h3
            refine ⟨le_refl 1, by simp [hic], fun hx _ => absurd hx hic, fun hx _ _ => absurd hx hic⟩
  · cases c with
    | text s => simp [updateValueM, hcat] at h
    | typed pv =>
      by_cases hne : pv = p.mValue
      · simp [updateValueM, hcat, hne] at h
        obtain ⟨h1, h2, h3⟩ := h
        subst h1 h2 h3
        refine ⟨by omega, by simp, fun _ hc => absurd hc hcat, fun _ _ hc => absurd (by rw [hne]) hc⟩
      · by_cases hic : p.mChangedInCode = true
        · simp [updateValueM, hcat, hne, hic] at h
          obtain ⟨h1, h2, h3⟩ := h
          subst h1 h2 h3
          refine ⟨le_refl 1, by simp, fun _ hc => absurd hc hcat, fun _ _ _ => ⟨rfl, rfl, rfl⟩⟩
        · simp [updateValueM, hcat, hne, hic] at h
          obtain ⟨h1, h2, h3⟩ := h
          subst h1 h2 h3
          refine ⟨le_refl 1, by simp [hic], fun hx _ => absurd hx hic, fun hx _ _ => absurd hx hic⟩

/-- C1, witness: the amended branch property evaluated on a concrete BOOL
parameter whose internal change is pushed out. -/
theorem C1_amended_witness :
    updateValueM boolParse boolToStr paramC1w (Control.typed false)
      = Except.ok ({ paramC1w with mChangedInCode := false }, Control.typed true, 1)
    ∧ ((1 : Nat) ≤ 1
      ∧ ¬((paramC1w.mChangedInCode = true
            ∧ ({ paramC1w with mChangedInCode := false } : Param Bool).mChangedInCode = false)
          ∧ (paramC1w.mChangedThroughPangolin = false
            ∧ ({ paramC1w with mChangedInCode := false } : Param Bool).mChangedThroughPangolin = true))
      ∧ (paramC1w.mChangedInCode = true →
          paramC1w.mCategory = ParameterCategory.TEXTINPUT →
          ({ paramC1w with mChangedInCode := false } : Param Bool).mChangedInCode = false
          ∧ Control.typed true = Control.text (boolToStr paramC1w.mValue)
          ∧ (1 : Nat) = 1)
      ∧ (paramC1w.mChangedInCode = true →
          paramC1w.mCategory ≠ ParameterCategory.TEXTINPUT →
          (Control.typed false : Control Bool String) ≠ Control.typed paramC1w.mValue →
          ({ paramC1w with mChangedInCode := false } : Param Bool).mChangedInCode = false
          ∧ (Control.typed true : Control Bool String) = Control.typed paramC1w.mValue
          ∧ (1 : Nat) = 1)) :=
  ⟨rfl, @C1_amended_one_branch Bool String _ boolParse boolToStr paramC1w
    { paramC1w with mChangedInCode := false } (Control.typed false)
    (Control.typed true) 1 rfl⟩

/-- C2, counterexample: a TEXTINPUT parameter whose external control holds
unconvertible text does not complete the reconciliation with a skip — the
`boost::lexical_cast` failure is uncaught and propagates as an exception
(the tick aborts rather than completing). -/
theorem C2_counterexample :
    updateValueM boolParse boolToStr paramC2ex (Control.text "abc")
      = Except.error RunErr.convError := rfl

/-- C2, amended: a FreeText parameter whose external control holds text
that cannot be converted to `T` makes the conversion failure propagate out
of the reconciliation pass — the tick aborts at that binding with a
`ConversionError` instead of completing; the failing parameter's internal
value and its external text are unchanged, and the remaining bindings are
not reconciled (the failure occurs before any mutation of that binding). -/
theorem C2_amended_abort {V S : Type} [DecidableEq V]
    {parse : S → Option V} {toStr : V → S}
    {heap : List (Option (Param V))} {pid : Nat} {p : Param V} {s : S}
    {rest : List (Nat × Control V S)}
    (hp : heap[pid]? = some (some p))
    (hcat : p.mCategory = ParameterCategory.TEXTINPUT)
    (hs : parse s = none) :
    tick parse toStr heap ((pid, Control.text s) :: rest)
      = (heap, (pid, Control.text s) :: rest, 0, some RunErr.convError) := by
  rw [tick, hp]
  simp [updateValueM, hcat, hs]

/-- C2, witness: the amended abort property evaluated on a concrete
FreeText parameter holding the unconvertible text "abc". -/
theorem C2_amended_witness :
    ([some paramC2w] : List (Option (Param Bool)))[0]? = some (some paramC2w)
    ∧ paramC2w.mCategory = ParameterCategory.TEXTINPUT
    ∧ boolParse "abc" = none
    ∧ tick boolParse boolToStr [some paramC2w] [(0, Control.text "abc")]
      = ([some paramC2w], [(0, Control.text "abc")], 0, some RunErr.convError) :=
  ⟨rfl, rfl, rfl,
    @C2_amended_abort Bool String _ boolParse boolToStr [some paramC2w] 0
      paramC2w "abc" [] rfl rfl rfl⟩

/-- C3: the code contradicts the tombstone-safety claim.  A pangolin binding
whose parameter has been destroyed (heap slot freed) makes
`updateParameters` dereference the stale pointer stored in `pangolinParams`
(`param->getVariant()` at line 218 runs with no null or tombstone check;
the destructor only nulls `parametersDict`, which `updateParameters` never
consults) — undefined behaviour instead of a silent skip. -/
theorem C3_tick_dereferences_destroyed :
    tick boolParse boolToStr ([none] : List (Option (Param Bool)))
        [(0, Control.typed true)]
      = ([none], [(0, Control.typed true)], 0, some RunErr.useAfterFree) := rfl

/-- C4: after an internal `setValue` followed by one reconciliation tick
(that completes), the external control holds the value that was set, the
`changedExternally` flag is not raised, `checkAndResetIfChanged` returns
false, and a further tick with no intervening change is a no-op — internal
changes do not echo back as external ones.  Requires the textual conversion
round-trip (`parse` after `toStr` restores the value), which holds for the
exact scalar types but is a genuine caveat for floating-point text
parameters. -/
theorem C4_no_echo {V S : Type} [DecidableEq V]
    {parse : S → Option V} {toStr : V → S}
    (rt : ∀ v : V, parse (toStr v) = some v)
    {p : Param V} {v : V} {c : Control V S}
    {p2 : Param V} {c2 : Control V S} {n : Nat}
    (hctp : p.mChangedThroughPangolin = false)
    (h : updateValueM parse toStr (setValue p v).1 c = Except.ok (p2, c2, n)) :
    (p.mCategory ≠ ParameterCategory.TEXTINPUT → c2 = Control.typed v)
    ∧ (p.mCategory = ParameterCategory.TEXTINPUT → c2 = Control.text (toStr v))
    ∧ p2.mChangedThroughPangolin = false
    ∧ checkAndResetIfChanged p2 = (false, p2)
    ∧ updateValueM parse toStr p2 c2 = Except.ok (p2, c2, 0) := by
  have hstable := updateValueM_stable rt h
  simp only [setValue] at h
  by_cases hcat : p.mCategory = ParameterCategory.TEXTINPUT
  · cases c with
    | typed w => simp [updateValueM, hcat] at h
    | text s =>
      cases hps : parse s with
      | none => simp [updateValueM, hcat, hps] at h
      | some w =>
        simp [updateValueM, hcat, hps] at h
        obtain ⟨h1, h2, h3⟩ := h
        subst h1 h2 h3
        refine ⟨fun hc => absurd hcat hc, fun _ => rfl, hctp, ?_, hstable⟩
        simp [checkAndResetIfChanged, hctp]
  · cases c with
    | text s => simp [updateValueM, hcat] at h
    | typed pv =>
      by_cases hne : pv = v
      · simp [updateValueM, hcat, hne] at h
        obtain ⟨h1, h2, h3⟩ := h
        subst h1 h2 h3
        refine ⟨fun _ => rfl, fun hc => absurd hc hcat, hctp, ?_, hstable⟩
        simp [checkAndResetIfChanged, hctp]
      · simp [updateValueM, hcat, hne] at h
        obtain ⟨h1, h2, h3⟩ := h
        subst h1 h2 h3
        refine ⟨fun _ => rfl, fun hc => absurd hc hcat, hctp, ?_, hstable⟩
        simp [checkAndResetIfChanged, hctp]

/-- C4, witness: the no-echo property evaluated on a concrete BOOL
parameter set internally to true. -/
theorem C4_no_echo_witness :
    (∀ b : Bool, boolParse (boolToStr b) = some b)
    ∧ paramC4w.mChangedThroughPangolin = false
    ∧ updateValueM boolParse boolToStr (setValue paramC4w true).1 (Control.typed false)
      = Except.ok ({ paramC4w with mValue := true }, Control.typed true, 1)
    ∧ ((paramC4w.mCategory ≠ ParameterCategory.TEXTINPUT →
        (Control.typed true : Control Bool String) = Control.typed true)
      ∧ (paramC4w.mCategory = ParameterCategory.TEXTINPUT →
        Control.typed true = Control.text (boolToStr true))
      ∧ ({ paramC4w with mValue := true } : Param Bool).mChangedThroughPangolin = false
      ∧ checkAndResetIfChanged ({ paramC4w with mValue := true } : Param Bool)
        = (false, { paramC4w with mValue := true })
      ∧ updateValueM boolParse boolToStr ({ paramC4w with mValue := true } : Param Bool)
          (Control.typed true)
        = Except.ok ({ paramC4w with mValue := true }, Control.typed true, 0)) :=
  ⟨by decide, rfl, rfl,
    @C4_no_echo Bool String _ boolParse boolToStr (by decide) paramC4w true
      (Control.typed false) { paramC4w with mValue := true } (Control.typed true)
      1 rfl rfl⟩

/-- C5: reconciliation is idempotent — whatever one tick produced
(including an aborted one), running a second tick from that state with no
intervening mutation changes no heap slot, no control, no flag, invokes no
`onUpdate` callback (count 0) and reports the same outcome.  Requires that
no parameter is bound twice (true of `pangolinParams`, which is keyed by
(group, name)) and the textual round-trip assumption. -/
theorem C5_tick_idempotent {V S : Type} [DecidableEq V]
    {parse : S → Option V} {toStr : V → S}
    (rt : ∀ v : V, parse (toStr v) = some v)
    {heap h2 : List (Option (Param V))} {bs bs2 : List (Nat × Control V S)}
    {n : Nat} {e : Option RunErr}
    (hnd : (bs.map Prod.fst).Nodup)
    (h : tick parse toStr heap bs = (h2, bs2, n, e)) :
    tick parse toStr h2 bs2 = (h2, bs2, 0, e) := by
  induction bs generalizing heap h2 bs2 n e with
  | nil =>
    rw [tick] at h
    simp only [Prod.mk.injEq] at h
    obtain ⟨rfl, rfl, rfl, rfl⟩ := h
    rfl
  | cons b rest ih =>
    obtain ⟨q, c⟩ := b
    simp only [List.map_cons, List.nodup_cons] at hnd
    obtain ⟨hq, hndr⟩ := hnd
    rw [tick] at h
    split at h
    · rename_i hh
      simp only [Prod.mk.injEq] at h
      obtain ⟨rfl, rfl, rfl, rfl⟩ := h
      rw [tick, hh]
    · rename_i hh
      simp only [Prod.mk.injEq] at h
      obtain ⟨rfl, rfl, rfl, rfl⟩ := h
      rw [tick, hh]
    · rename_i pp hh
      split at h
      · rename_i e0 hu
        simp only [Prod.mk.injEq] at h
        obtain ⟨rfl, rfl, rfl, rfl⟩ := h
        rw [tick, hh]
        simp only [hu]
      · rename_i p1 c1 n1 hu
        split at h
        rename_i hA bsA mA eA htk
        simp only [Prod.mk.injEq] at h
        obtain ⟨rfl, rfl, rfl, rfl⟩ := h
        have hmem : hA[q]? = some (some p1) := by
          have hother := tick_heap_other parse toStr (heap.set q (some p1)) rest q hq
          rw [htk] at hother
          simp only at hother
          rw [hother]
          have hlt : q < heap.length := (List.getElem?_eq_some.mp hh).1
          exact List.getElem?_set_eq_of_lt (some p1) hlt
        have hstab := updateValueM_stable rt hu
        have hset : hA.set q (some p1) = hA := listSet_same _ _ _ hmem
        have hrest2 := ih hndr htk
        rw [tick, hmem]
        simp only [hstab, hset, hrest2]

/-- C5, witness: idempotence evaluated on a concrete one-binding state
whose first tick pulls an external change. -/
theorem C5_tick_idempotent_witness :
    (∀ b : Bool, boolParse (boolToStr b) = some b)
    ∧ (([(0, Control.typed true)] : List (Nat × Control Bool String)).map Prod.fst).Nodup
    ∧ tick boolParse boolToStr [some paramC5w] [(0, Control.typed true)]
      = ([some { paramC5w with mValue := true, mChangedThroughPangolin := true }],
          [(0, Control.typed true)], 1, none)
    ∧ tick boolParse boolToStr
        [some { paramC5w with mValue := true, mChangedThroughPangolin := true }]
        [(0, Control.typed true)]
      = ([some { paramC5w with mValue := true, mChangedThroughPangolin := true }],
          [(0, Control.typed true)], 0, none) :=
  ⟨by decide, by decide, rfl,
    @C5_tick_idempotent Bool String _ boolParse boolToStr (by decide)
      [some paramC5w]
      [some { paramC5w with mValue := true, mChangedThroughPangolin := true }]
      [(0, Control.typed true)] [(0, Control.typed true)] 1 none (by decide) rfl⟩

/-- C6: after a tick pulls an externally-originated change, the parameter
holds the external value and `checkAndResetIfChanged` returns true exactly
once, then false on every subsequent call (the reset state is a fixed
point) until another external change. -/
theorem C6_edge_detector_once {V S : Type} [DecidableEq V]
    (parse : S → Option V) (toStr : V → S) {p : Param V} {w : V}
    (hcat : p.mCategory ≠ ParameterCategory.TEXTINPUT)
    (hic : p.mChangedInCode = false)
    (hne : w ≠ p.mValue) :
    updateValueM parse toStr p (Control.typed w)
      = Except.ok ({ p with mValue := w, mChangedThroughPangolin := true },
          Control.typed w, 1)
    ∧ getValue ({ p with mValue := w, mChangedThroughPangolin := true } : Param V) = w
    ∧ checkAndResetIfChanged ({ p with mValue := w, mChangedThroughPangolin := true } : Param V)
      = (true, { p with mValue := w, mChangedThroughPangolin := false })
    ∧ checkAndResetIfChanged ({ p with mValue := w, mChangedThroughPangolin := false } : Param V)
      = (false, { p with mValue := w, mChangedThroughPangolin := false }) := by
  refine ⟨?_, rfl, ?_, ?_⟩
  · simp [updateValueM, hcat, hic, hne]
  · simp [checkAndResetIfChanged]
  · simp [checkAndResetIfChanged]

/-- C6, witness: the one-shot edge detector evaluated on a concrete BOOL
parameter pulled from false to true. -/
theorem C6_edge_detector_once_witness :
    paramC6w.mCategory ≠ ParameterCategory.TEXTINPUT
    ∧ paramC6w.mChangedInCode = false
    ∧ true ≠ paramC6w.mValue
    ∧ (updateValueM boolParse boolToStr paramC6w (Control.typed true)
        = Except.ok ({ paramC6w with mValue := true, mChangedThroughPangolin := true },
            Control.typed true, 1)
      ∧ getValue ({ paramC6w with mValue := true, mChangedThroughPangolin := true } : Param Bool) = true
      ∧ checkAndResetIfChanged
          ({ paramC6w with mValue := true, mChangedThroughPangolin := true } : Param Bool)
        = (true, { paramC6w with mValue := true, mChangedThroughPangolin := false })
      ∧ checkAndResetIfChanged
          ({ paramC6w with mValue := true, mChangedThroughPangolin := false } : Param Bool)
        = (false, { paramC6w with mValue := true, mChangedThroughPangolin := false })) :=
  ⟨by decide, rfl, by decide,
    C6_edge_detector_once boolParse boolToStr (by decide) rfl (by decide)⟩

/-- C7: `setValue(v)` stores `v` and raises the `changedInternally` flag
(`mChangedInCode`); it invokes no `onUpdate` callback, and it leaves the
`changedExternally` flag (`mChangedThroughPangolin`), name, group, category
and bounds untouched. -/
theorem C7_setValue_frame {V : Type} (p : Param V) (v : V) :
    (setValue p v).1.mValue = v
    ∧ (setValue p v).1.mChangedInCode = true
    ∧ (setValue p v).2 = 0
    ∧ (setValue p v).1.mChangedThroughPangolin = p.mChangedThroughPangolin
    ∧ (setValue p v).1.mName = p.mName
    ∧ (setValue p v).1.mGroup = p.mGroup
    ∧ (setValue p v).1.mCategory = p.mCategory
    ∧ (setValue p v).1.mMinValue = p.mMinValue
    ∧ (setValue p v).1.mMaxValue = p.mMaxValue := by
  refine ⟨rfl, rfl, rfl, rfl, rfl, rfl, rfl, rfl, rfl⟩

/-- C8: constructing a second parameter under an already-registered
(group, name) does not fail — the duplicate warning is logged, the registry
entry is overwritten, and a subsequent lookup returns the second instance
(with no lookup diagnostic). -/
theorem C8_duplicate_overwrite (reg : Registry) (g : ParameterGroup)
    (name : String) (pid1 pid2 : Nat) :
    (registerParam (registerParam reg g name pid1).1 g name pid2).2 = true
    ∧ getParameter (registerParam (registerParam reg g name pid1).1 g name pid2).1 g name
      = (some pid2, false) := by
  unfold registerParam getParameter
  simp [regFind_regSet_self, mapFind_mapInsert_self]

/-- C9, counterexample: registering "b" and then "a" in group TRACKING makes
the group iteration (as `createPangolinEntries` performs it) visit "a"
before "b" — the reverse of insertion (declaration) order, because
`parametersDict`'s per-group map is key-sorted. -/
theorem C9_counterexample :
    groupKeys ((registerParam ((registerParam [] ParameterGroup.TRACKING "b" 0).1)
        ParameterGroup.TRACKING "a" 1).1) ParameterGroup.TRACKING = ["a", "b"]
    ∧ groupKeys ((registerParam ((registerParam [] ParameterGroup.TRACKING "b" 0).1)
        ParameterGroup.TRACKING "a" 1).1) ParameterGroup.TRACKING ≠ ["b", "a"] := by
  exact ⟨by decide, by decide⟩

/-- C9, amended: iterating over a group's registered parameters (as
`createPangolinEntries` does) visits them in ascending lexicographic name
order — the order of the underlying key-sorted map, stable across runs but
not insertion order in general. -/
theorem C9_amended_sorted_order (regs : List (String × Nat))
    (g : ParameterGroup) :
    List.Chain' (fun a b => strLt a b = true)
      (groupKeys (regs.foldl (fun r kv => (registerParam r g kv.1 kv.2).1) []) g) := by
  suffices h : ∀ r : Registry,
      (∀ g' : ParameterGroup,
        List.Chain' (fun a b => strLt a b = true) (groupKeys r g')) →
      ∀ g' : ParameterGroup,
        List.Chain' (fun a b => strLt a b = true)
          (groupKeys (regs.foldl (fun r kv => (registerParam r g kv.1 kv.2).1) r) g') by
    refine h [] (fun g' => ?_) g
    simp [groupKeys, regFind]
  induction regs with
  | nil =>
    intro r hr g'
    simpa using hr g'
  | cons kv rest ih =>
    intro r hr g'
    simp only [List.foldl_cons]
    exact ih _ (fun g'' => registerParam_chain r g g'' kv.1 kv.2 (hr g'')) g'

/-- C10: after a parameter is destroyed, a typed lookup of its
(group, name) returns the null result — the same value-level answer as a
genuine miss — but logs no lookup diagnostic, because the tombstoned key is
still present; a genuine miss (here: the empty registry) does log the
diagnostic. -/
theorem C10_tombstone_lookup (reg : Registry) (g : ParameterGroup)
    (name : String) (pid : Nat) :
    getParameter (tombstoneParam (registerParam reg g name pid).1 g name) g name
      = (none, false)
    ∧ getParameter ([] : Registry) g name = (none, true) := by
  unfold registerParam tombstoneParam getParameter
  simp [regFind_regSet_self, mapFind_mapInsert_self, regFind]
